import Mathlib

/-!
Verification of the admin-file upload server (`src/server.js`).

The development shallowly embeds the pure logic of the server:

* paths are modelled as normalized segment lists (Node `path.join` resolves
  `.` and `..` and collapses separators; the filesystem root is the empty
  list and the server's `__dirname` is modelled as `["srv", "admin-file"]`);
* JS strings reaching the classifier and resolvers are Lean `String`s;
  the filename-encoding repair, which operates on raw UTF-16 code units,
  is modelled on `List Nat` (one element per code unit);
* the filesystem is a finite association list from paths to entries, and
  the upload / delete / list handlers become state-passing functions;
* absent optional request fields are the empty string, matching JS
  truthiness tests such as `if (category)`.
-/

/-- Splitting a character list on `'/'` (accumulator holds the current
segment reversed). Structural, so that it evaluates inside the kernel. -/
def splitSlashAux : List Char → List Char → List (List Char)
  | [], acc => [acc.reverse]
  | c :: rest, acc =>
    if c = '/' then acc.reverse :: splitSlashAux rest []
    else splitSlashAux rest (c :: acc)

/-- The `/`-separated parts of a string (empty parts included, as in
`String.prototype.split`). -/
def pathParts (s : String) : List String :=
  (splitSlashAux s.toList []).map String.mk

/-- Segment-wise normalization, as performed by Node `path.join`:
`""` and `"."` segments are dropped, `".."` pops the last segment
(clamping at the root, i.e. the empty stack, as for absolute paths),
anything else is pushed. -/
def normSegs : List String → List String → List String
  | stack, [] => stack
  | stack, seg :: rest =>
    if seg = "" ∨ seg = "." then normSegs stack rest
    else if seg = ".." then normSegs stack.dropLast rest
    else normSegs (stack ++ [seg]) rest

/-- Models `path.join(base, s)` for an already-normalized absolute `base`:
split `s` on `/` and normalize the segments onto `base`. -/
def joinSegs (base : List String) (s : String) : List String :=
  normSegs base (pathParts s)

/-- The storage root, `path.join(__dirname, "uploads")` (`server.js` line 11);
`__dirname` is modelled as `/srv/admin-file`. -/
def baseUploadDirSegs : List String := ["srv", "admin-file", "uploads"]

/-- The staging subtree, `path.join(baseUploadDir, "temp")` (line 12). -/
def tempUploadDirSegs : List String := joinSegs baseUploadDirSegs "temp"

/-- ASCII lowercasing of a string; models `String.prototype.toLowerCase`
on the inputs that occur here (all extension-table keys are ASCII). -/
def asciiLower (s : String) : String :=
  String.mk (s.toList.map (fun c =>
    if 'A' ≤ c ∧ c ≤ 'Z' then Char.ofNat (c.toNat + 32) else c))

/-- Index of the last `'.'` in a character list, if any. -/
def lastDotIdx (cs : List Char) : Option Nat :=
  ((cs.enum.filter (fun p => p.2 == '.')).getLast?).map (fun p => p.1)

/-- Node `path.extname`: the substring of the last path component from its
last dot (inclusive); `""` when there is no dot, when the only dot leads
the component (dotfiles), or for the special components `"."` and `".."`.
Trailing-separator handling is elided (no input here ends in `/`). -/
def extname (p : String) : String :=
  let base := (pathParts p).getLastD ""
  if base = "." ∨ base = ".." then ""
  else
    let cs := base.toList
    match lastDotIdx cs with
    | none => ""
    | some 0 => ""
    | some i => String.mk (cs.drop i)

/-- Node `path.basename(p, ext)`: the last component, with `ext` stripped
when it is a proper suffix of the component. -/
def basenameDrop (p : String) (ext : String) : String :=
  let base := (pathParts p).getLastD ""
  let cs := base.toList
  let ecs := ext.toList
  if ext ≠ "" ∧ ecs.length < cs.length ∧ ecs.isSuffixOf cs then
    String.mk (cs.take (cs.length - ecs.length))
  else base

/-- The MIME-type table `fileCategories` (`server.js` lines 26-114),
as an ordered list of (category, accepted MIME types) pairs —
`Object.entries` preserves this insertion order. -/
def fileCategories : List (String × List String) :=
  [ ("images",
     ["image/jpeg", "image/png", "image/gif", "image/bmp", "image/svg+xml",
      "image/webp", "image/avif", "image/apng"]),
    ("videos",
     ["video/mp4", "video/mpeg", "video/quicktime", "video/x-msvideo",
      "video/x-matroska", "video/webm"]),
    ("audios",
     ["audio/mpeg", "audio/wav", "audio/ogg", "audio/flac", "audio/aac",
      "audio/x-wav"]),
    ("codes",
     ["text/javascript", "application/javascript", "application/x-javascript",
      "text/x-python", "application/x-python", "text/x-php",
      "application/x-php", "text/x-java-source", "application/x-java-source",
      "text/x-c", "text/x-c++", "application/x-c", "application/x-c++",
      "text/x-ruby", "application/x-ruby", "text/x-go", "application/x-go",
      "text/typescript", "application/typescript", "text/html", "text/css",
      "text/xml", "application/json", "application/x-yaml", "text/yaml",
      "application/sql", "text/x-sql", "text/x-shellscript"]),
    ("documents",
     ["text/plain", "text/markdown", "application/pdf", "application/msword",
      "application/vnd.openxmlformats-officedocument.wordprocessingml.document",
      "application/vnd.ms-powerpoint",
      "application/vnd.openxmlformats-officedocument.presentationml.presentation",
      "application/vnd.ms-excel",
      "application/vnd.openxmlformats-officedocument.spreadsheetml.sheet",
      "application/rtf", "application/vnd.oasis.opendocument.text",
      "application/vnd.oasis.opendocument.spreadsheet",
      "application/vnd.oasis.opendocument.presentation"]),
    ("archives",
     ["application/zip", "application/x-rar-compressed",
      "application/x-7z-compressed", "application/x-tar", "application/gzip",
      "application/x-gzip"]),
    ("fonts",
     ["font/ttf", "font/otf", "font/woff", "font/woff2",
      "application/x-font-ttf", "application/x-font-otf"]) ]

/-- Association-list lookup, modelling JS object property access
`table[key]` on the static string-keyed tables. -/
def alookup (k : String) : List (String × String) → Option String
  | [] => none
  | (k', v) :: rest => if k = k' then some v else alookup k rest

/-- The extension table `extensionToCategory` (`server.js` lines 117-205). -/
def extensionToCategory : List (String × String) :=
  [ (".jpg", "images"), (".jpeg", "images"), (".png", "images"),
    (".gif", "images"), (".bmp", "images"), (".svg", "images"),
    (".webp", "images"), (".avif", "images"), (".apng", "images"),
    (".mp4", "videos"), (".mpeg", "videos"), (".mov", "videos"),
    (".avi", "videos"), (".mkv", "videos"), (".webm", "videos"),
    (".mp3", "audios"), (".wav", "audios"), (".ogg", "audios"),
    (".flac", "audios"), (".aac", "audios"),
    (".js", "codes"), (".mjs", "codes"), (".py", "codes"), (".php", "codes"),
    (".java", "codes"), (".c", "codes"), (".cpp", "codes"), (".cc", "codes"),
    (".h", "codes"), (".hpp", "codes"), (".rb", "codes"), (".go", "codes"),
    (".ts", "codes"), (".tsx", "codes"), (".html", "codes"),
    (".htm", "codes"), (".css", "codes"), (".scss", "codes"),
    (".less", "codes"), (".json", "codes"), (".xml", "codes"),
    (".yaml", "codes"), (".yml", "codes"), (".toml", "codes"),
    (".ini", "codes"), (".conf", "codes"), (".sql", "codes"),
    (".sh", "codes"), (".bash", "codes"), (".zsh", "codes"),
    (".swift", "codes"), (".kt", "codes"), (".rs", "codes"),
    (".dart", "codes"), (".vue", "codes"), (".svelte", "codes"),
    (".txt", "documents"), (".md", "documents"), (".pdf", "documents"),
    (".doc", "documents"), (".docx", "documents"), (".ppt", "documents"),
    (".pptx", "documents"), (".xls", "documents"), (".xlsx", "documents"),
    (".rtf", "documents"), (".odt", "documents"), (".ods", "documents"),
    (".odp", "documents"),
    (".zip", "archives"), (".rar", "archives"), (".7z", "archives"),
    (".tar", "archives"), (".gz", "archives"), (".tgz", "archives"),
    (".ttf", "fonts"), (".otf", "fonts"), (".woff", "fonts"),
    (".woff2", "fonts"), (".eot", "fonts") ]

/-- The classifier `getFileCategory(mimetype, filename)` (`server.js` lines 233-246):
first MIME-type table entry whose list contains the MIME type; otherwise
the lower-cased extension looked up in the extension table; otherwise
`"others"`. -/
def getFileCategory (mimetype filename : String) : String :=
  match fileCategories.find? (fun p => p.2.contains mimetype) with
  | some p => p.1
  | none =>
    let ext := asciiLower (extname filename)
    match alookup ext extensionToCategory with
    | some c => c
    | none => "others"

/-- The path resolver `getFullStoragePath(category, namespace, mimetype,
filename)` (`server.js` lines 265-277): explicit category first, then explicit
namespace, then the auto-detected category. Absent fields are `""`
(JS falsy). -/
def getFullStoragePath (category nspace mimetype filename : String) :
    List String :=
  if category ≠ "" then joinSegs baseUploadDirSegs category
  else if nspace ≠ "" then joinSegs baseUploadDirSegs nspace
  else joinSegs baseUploadDirSegs (getFileCategory mimetype filename)

/-- A filesystem entry: a regular file (its byte content abstracted to a
`Nat` identifier) or a directory. -/
inductive Entry where
  | file (content : Nat)
  | dir
deriving DecidableEq, Repr

/-- The filesystem: a finite association from (absolute, normalized)
paths to entries. -/
abbrev FS := List (List String × Entry)

/-- The entry at a path, if any (`fs.stat` / `fs.access`). -/
def fsLookup (fs : FS) (p : List String) : Option Entry :=
  (fs.find? (fun pe => pe.1 == p)).map (fun pe => pe.2)

/-- Models `fileExists` (`server.js` lines 248-255): `fs.access` succeeds for
files and directories alike. -/
def pathExists (fs : FS) (p : List String) : Bool :=
  (fsLookup fs p).isSome

/-- Removing the entry at a path (`fs.unlink` / `fs.rmdir`). -/
def fsErase (fs : FS) (p : List String) : FS :=
  fs.filter (fun pe => pe.1 != p)

/-- Creating or replacing the entry at a path. -/
def fsWrite (fs : FS) (p : List String) (e : Entry) : FS :=
  fsErase fs p ++ [(p, e)]

/-- Models `fs.rename(src, dst)`: moves the entry at `src` to `dst`,
silently replacing any existing entry at `dst` (POSIX rename). -/
def fsRename (fs : FS) (src dst : List String) : FS :=
  match fsLookup fs src with
  | some e => fsWrite (fsErase fs src) dst e
  | none => fs

/-- Models `ensureDirectoryExists` (`server.js` lines 211-222): creates the
directory when absent (in the states considered here the parent already
exists, so `recursive: true` ancestor creation is not needed). -/
def ensureDir (fs : FS) (p : List String) : FS :=
  if pathExists fs p then fs else fs ++ [(p, Entry.dir)]

/-- The name of `p` inside directory `d`, when `p` is a direct child
of `d` (used to model `fs.readdir`). -/
def childName? (d : List String) (p : List String) : Option String :=
  match p.reverse with
  | [] => none
  | n :: rest => if rest.reverse = d then some n else none

/-- Models `fs.readdir(d)`: the names of the direct children of `d`. -/
def childNames (fs : FS) (d : List String) : List String :=
  fs.filterMap (fun pe => childName? d pe.1)

/-- One complete `POST /upload` request (`server.js` lines 292-331 and
393-466) for an already-authenticated caller, as a state transformer.
Steps, in source order: multer stages the stream into the temp directory
(`storage.destination` ensures it exists; `storage.filename` keeps the
declared name unless that name already exists in the temp directory, in
which case `base-<timestamp>ext` is used); the handler then resolves the
final directory with `getFullStoragePath`, ensures it exists, and renames
the staged file to `finalDir/<staged name>`. `originalName` is the
declared name after encoding repair (the repair is the identity on the
ASCII names used in the theorems below). Returns the new state and the
stored filename reported in the response. -/
def uploadStep (fs : FS) (originalName category nspace mimetype : String)
    (content timestamp : Nat) : FS × String :=
  let fs1 := ensureDir fs tempUploadDirSegs
  let ext := extname originalName
  let nameNoExt := basenameDrop originalName ext
  let tempProbe := joinSegs tempUploadDirSegs originalName
  let storedName :=
    if pathExists fs1 tempProbe then
      nameNoExt ++ "-" ++ toString timestamp ++ ext
    else originalName
  let stagedPath := joinSegs tempUploadDirSegs storedName
  let fs2 := fsWrite fs1 stagedPath (Entry.file content)
  let finalDir := getFullStoragePath category nspace mimetype originalName
  let fs3 := ensureDir fs2 finalDir
  let finalPath := joinSegs finalDir storedName
  let fs4 := if stagedPath ≠ finalPath then fsRename fs3 stagedPath finalPath else fs3
  (fs4, storedName)

/-- The outcome reported by the `DELETE /delete` handler. -/
inductive DeleteResult where
  | badRequest
  | notFound
  | fileDeleted
  | dirDeleted
  | dirNotEmpty (itemCount : Nat)
deriving DecidableEq, Repr

/-- The target path computed by the `DELETE /delete` handler
(`server.js` lines 477-486): namespace, then category, then
parentNamespace, then the storage root. -/
def deleteTargetPath (name nspace category parentNamespace : String) :
    List String :=
  if nspace ≠ "" then joinSegs (joinSegs baseUploadDirSegs nspace) name
  else if category ≠ "" then joinSegs (joinSegs baseUploadDirSegs category) name
  else if parentNamespace ≠ "" then
    joinSegs (joinSegs baseUploadDirSegs parentNamespace) name
  else joinSegs baseUploadDirSegs name

/-- The `DELETE /delete` handler (`server.js` lines 469-540) for an
authenticated caller: 400 without a name; 404 when the target is absent;
files are unlinked; a directory is removed only when `readdir` reports
no entries, otherwise a 400 carrying the entry count is returned and
the state is untouched. -/
def deleteHandler (fs : FS) (name nspace category parentNamespace : String) :
    DeleteResult × FS :=
  if name = "" then (DeleteResult.badRequest, fs)
  else
    let targetPath := deleteTargetPath name nspace category parentNamespace
    match fsLookup fs targetPath with
    | none => (DeleteResult.notFound, fs)
    | some (Entry.file _) => (DeleteResult.fileDeleted, fsErase fs targetPath)
    | some Entry.dir =>
      let items := childNames fs targetPath
      if items.length > 0 then (DeleteResult.dirNotEmpty items.length, fs)
      else (DeleteResult.dirDeleted, fsErase fs targetPath)

/-- The `GET /files` handler (`server.js` lines 543-610), reduced to the
names it returns: with neither namespace nor category it lists the storage
root, skipping the entry named `"temp"`; otherwise it lists
`getFullStoragePath(category, namespace, "", "")`, or answers 404 (`none`)
when that directory does not exist. -/
def filesHandler (fs : FS) (nspace category : String) : Option (List String) :=
  if nspace = "" ∧ category = "" then
    some ((childNames fs baseUploadDirSegs).filter (fun n => n != "temp"))
  else
    let targetDir := getFullStoragePath category nspace "" ""
    if pathExists fs targetDir then some (childNames fs targetDir) else none

/-- Whether a byte is a UTF-8 continuation byte (`0x80`-`0xBF`). -/
def isCont (b : Nat) : Bool :=
  0x80 ≤ b && b ≤ 0xBF

/-- Replacing UTF-8 decoder, as in Node `buffer.toString("utf8")` (the WHATWG decoder: a malformed sequence is
replaced by one U+FFFD per maximal valid prefix consumed, and decoding
never fails). Returns the decoded Unicode scalar values. -/
def utf8DecodeReplace : List Nat → List Nat
  | [] => []
  | b :: rest =>
    if b ≤ 0x7F then b :: utf8DecodeReplace rest
    else if 0xC2 ≤ b ∧ b ≤ 0xDF then
      match rest with
      | [] => [0xFFFD]
      | b1 :: r =>
        if isCont b1 then
          ((b - 0xC0) * 64 + (b1 - 0x80)) :: utf8DecodeReplace r
        else 0xFFFD :: utf8DecodeReplace (b1 :: r)
    else if 0xE0 ≤ b ∧ b ≤ 0xEF then
      let lo := if b = 0xE0 then 0xA0 else 0x80
      let hi := if b = 0xED then 0x9F else 0xBF
      match rest with
      | [] => [0xFFFD]
      | b1 :: r =>
        if lo ≤ b1 ∧ b1 ≤ hi then
          match r with
          | [] => [0xFFFD]
          | b2 :: r2 =>
            if isCont b2 then
              ((b - 0xE0) * 4096 + (b1 - 0x80) * 64 + (b2 - 0x80)) ::
                utf8DecodeReplace r2
            else 0xFFFD :: utf8DecodeReplace (b2 :: r2)
        else 0xFFFD :: utf8DecodeReplace (b1 :: r)
    else if 0xF0 ≤ b ∧ b ≤ 0xF4 then
      let lo := if b = 0xF0 then 0x90 else 0x80
      let hi := if b = 0xF4 then 0x8F else 0xBF
      match rest with
      | [] => [0xFFFD]
      | b1 :: r =>
        if lo ≤ b1 ∧ b1 ≤ hi then
          match r with
          | [] => [0xFFFD]
          | b2 :: r2 =>
            if isCont b2 then
              match r2 with
              | [] => [0xFFFD]
              | b3 :: r3 =>
                if isCont b3 then
                  ((b - 0xF0) * 262144 + (b1 - 0x80) * 4096 +
                    (b2 - 0x80) * 64 + (b3 - 0x80)) :: utf8DecodeReplace r3
                else 0xFFFD :: utf8DecodeReplace (b3 :: r3)
            else 0xFFFD :: utf8DecodeReplace (b2 :: r2)
        else 0xFFFD :: utf8DecodeReplace (b1 :: r)
    else 0xFFFD :: utf8DecodeReplace rest

/-- Strict UTF-8 validity of a byte sequence (same case analysis as the
replacing decoder, failing instead of substituting). -/
def utf8Valid : List Nat → Bool
  | [] => true
  | b :: rest =>
    if b ≤ 0x7F then utf8Valid rest
    else if 0xC2 ≤ b ∧ b ≤ 0xDF then
      match rest with
      | [] => false
      | b1 :: r => if isCont b1 then utf8Valid r else false
    else if 0xE0 ≤ b ∧ b ≤ 0xEF then
      let lo := if b = 0xE0 then 0xA0 else 0x80
      let hi := if b = 0xED then 0x9F else 0xBF
      match rest with
      | [] => false
      | b1 :: r =>
        if lo ≤ b1 ∧ b1 ≤ hi then
          match r with
          | [] => false
          | b2 :: r2 => if isCont b2 then utf8Valid r2 else false
        else false
    else if 0xF0 ≤ b ∧ b ≤ 0xF4 then
      let lo := if b = 0xF0 then 0x90 else 0x80
      let hi := if b = 0xF4 then 0x8F else 0xBF
      match rest with
      | [] => false
      | b1 :: r =>
        if lo ≤ b1 ∧ b1 ≤ hi then
          match r with
          | [] => false
          | b2 :: r2 =>
            if isCont b2 then
              match r2 with
              | [] => false
              | b3 :: r3 => if isCont b3 then utf8Valid r3 else false
            else false
        else false
    else false

/-- The UTF-16 code units of a list of Unicode scalar values (scalars beyond
the BMP become surrogate pairs), recovering a JS string from the decoder
output. -/
def utf16OfScalars : List Nat → List Nat
  | [] => []
  | s :: r =>
    (if s < 0x10000 then [s]
     else [0xD800 + (s - 0x10000) / 0x400, 0xDC00 + (s - 0x10000) % 0x400])
      ++ utf16OfScalars r

/-- Models `Buffer.from(name, "latin1").toString("utf8")` on a JS string given
by its UTF-16 code units: `latin1` encoding keeps each code unit modulo
256, and `toString("utf8")` is the replacing decoder above. Both
operations are total, so this never throws (`Except.error` is never
produced); the `try` body of `fixFileNameEncoding` always succeeds. -/
def bufferLatin1ThenUtf8 (units : List Nat) : Except String (List Nat) :=
  Except.ok (utf16OfScalars (utf8DecodeReplace (units.map (fun u => u % 256))))

/-- The repair function `fixFileNameEncoding` (`server.js` lines 282-289): re-decode the
latin1 bytes of the name as UTF-8, falling back to the original name if
that threw (it never does — the fallback branch is unreachable). -/
def fixFileNameEncoding (units : List Nat) : List Nat :=
  match bufferLatin1ThenUtf8 units with
  | Except.ok s => s
  | Except.error _ => units

/-- The previewable-extension set (`server.js` lines 706-732), kept as
the literal list of the source (the duplicate `".ogg"` included; membership
is unaffected). -/
def previewableExtensions : List String :=
  [".jpg", ".jpeg", ".png", ".gif", ".bmp", ".svg", ".webp", ".avif",
   ".apng", ".pdf", ".mp3", ".wav", ".ogg", ".flac", ".aac", ".mp4",
   ".webm", ".ogg", ".mov", ".avi", ".mkv"]

/-- Models the check `url.searchParams.has("download")` and
`url.searchParams.get("download") === "1"` (`server.js` lines 788-791);
`get` returns the first value of the parameter. -/
def downloadRequested (query : List (String × String)) : Bool :=
  match query.find? (fun p => p.1 == "download") with
  | some p => p.2 == "1"
  | none => false

/-- The `Content-Disposition` type chosen by the static-file
`setHeaders` callback (`server.js` lines 786-811): `attachment` when
`download=1` is present, else `inline` for a previewable lower-cased
extension, else `attachment`. (The full header also carries the encoded
filename; only the disposition type is modelled.) -/
def contentDisposition (filePath : String) (query : List (String × String)) :
    String :=
  let ext := asciiLower (extname filePath)
  if downloadRequested query then "attachment"
  else if previewableExtensions.contains ext then "inline"
  else "attachment"

/-- The `mimetype` field of the `GET /file` response (`server.js` lines
657-659): `<extension category>/<extension without dot>` when the
lower-cased extension is in the extension table, else
`application/octet-stream`. (`ext.substring(1)` drops the leading dot.) -/
def fileDetailMimetype (filename : String) : String :=
  let ext := asciiLower (extname filename)
  match alookup ext extensionToCategory with
  | some c => c ++ "/" ++ String.mk (ext.toList.drop 1)
  | none => "application/octet-stream"

/-- The `category` field of the `GET /file` response (`server.js` line
631): the classifier invoked with an empty MIME-type string. -/
def fileDetailCategory (filename : String) : String :=
  getFileCategory "" filename

/-- The fixed category set of the specification. -/
def allCategories : List String :=
  ["images", "videos", "audios", "codes", "documents", "archives",
   "fonts", "others"]

/-- Classification by filename extension alone, as the specification
words it for the `GET /file` response: the extension-table category when
present, `others` otherwise (C10's comparison target). -/
def categoryFromExtensionOnly (filename : String) : String :=
  match alookup (asciiLower (extname filename)) extensionToCategory with
  | some c => c
  | none => "others"

/-- The resolver as the specification words it (§4.3):
optional explicit category, then optional explicit namespace, then the
classifier (C2's comparison target). -/
def resolveSpec (cat? ns? : Option String) (mimetype filename : String) :
    List String :=
  match cat? with
  | some c => joinSegs baseUploadDirSegs c
  | none =>
    match ns? with
    | some n => joinSegs baseUploadDirSegs n
    | none => joinSegs baseUploadDirSegs (getFileCategory mimetype filename)

/-- An absent-iff-empty JS string as an optional value. -/
def optOf (s : String) : Option String :=
  if s = "" then none else some s

/-- A path is inside the storage root when the root's segments are a
prefix of its segments. -/
def isUnderStorageRoot (p : List String) : Bool :=
  baseUploadDirSegs.isPrefixOf p

/-- Every category name appearing in the MIME-type table is one of the
eight fixed categories. -/
lemma fileCategories_keys_mem :
    ∀ p ∈ fileCategories, allCategories.contains p.1 = true := by decide

/-- Every category appearing as a value of the extension table is one of
the eight fixed categories. -/
lemma extensionToCategory_vals_mem :
    ∀ p ∈ extensionToCategory, allCategories.contains p.2 = true := by decide

/-- A successful association-list lookup comes from a pair of the list. -/
lemma alookup_mem {k v : String} :
    ∀ {l : List (String × String)}, alookup k l = some v → (k, v) ∈ l := by
  intro l
  induction l with
  | nil => intro h; cases h
  | cons p rest ih =>
    intro h
    obtain ⟨k', v'⟩ := p
    by_cases hk : k = k'
    · simp [alookup, hk] at h
      subst hk; subst h
      exact List.mem_cons_self _ _
    · simp [alookup, hk] at h
      exact List.mem_cons_of_mem _ (ih h)

/-- C3: `getFileCategory` is total onto the fixed category set, consults
the MIME-type table first (so a MIME match decides the category whatever
the extension says), falls back to the lower-cased extension when no MIME
entry matches, and yields `others` when both tables miss. -/
theorem C3_classify_total_priority :
    (∀ m f, allCategories.contains (getFileCategory m f) = true)
    ∧ (∀ m f c,
        (fileCategories.find? (fun q => q.2.contains m)).map (fun q => q.1)
          = some c →
        getFileCategory m f = c)
    ∧ (∀ m f,
        fileCategories.find? (fun q => q.2.contains m) = none →
        getFileCategory m f = categoryFromExtensionOnly f)
    ∧ getFileCategory "application/x-unknown" "PHOTO.PNG" = "images"
    ∧ getFileCategory "application/x-unknown" "file.zzz" = "others" := by
  refine ⟨?_, ?_, ?_, by decide, by decide⟩
  · intro m f
    unfold getFileCategory
    cases h : fileCategories.find? (fun q => q.2.contains m) with
    | some p =>
      exact fileCategories_keys_mem p (List.mem_of_find?_eq_some h)
    | none =>
      dsimp only
      cases h2 : alookup (asciiLower (extname f)) extensionToCategory with
      | some c => exact extensionToCategory_vals_mem _ (alookup_mem h2)
      | none => rfl
  · intro m f c h
    obtain ⟨q, hq, hqc⟩ := Option.map_eq_some'.mp h
    unfold getFileCategory
    rw [hq]
    exact hqc
  · intro m f h
    unfold getFileCategory categoryFromExtensionOnly
    rw [h]

/-- Witness for C3: a MIME type found in the table decides the category
even when the extension table would classify the file differently
(`image/png` beats the `.pdf` extension). -/
theorem C3_classify_total_priority_witness :
    getFileCategory "image/png" "doc.pdf" = "images"
    ∧ getFileCategory "application/flux" "doc.pdf" = "documents" := by
  refine ⟨C3_classify_total_priority.2.1 "image/png" "doc.pdf" "images" (by decide),
          C3_classify_total_priority.2.2.1 "application/flux" "doc.pdf" (by decide)⟩

/-- C2: the storage-path resolver is a pure function with the strict
precedence category, then namespace, then auto-classification. The first
conjunct is the full refinement against the resolver as the specification
words it, covering all eight combinations of (category present or
absent), (namespace present or absent), (auto-classifiable or not);
the second conjunct states directly that a supplied category wins
whatever the namespace is. -/
theorem C2_resolver_precedence :
    (∀ c n m f,
      getFullStoragePath c n m f = resolveSpec (optOf c) (optOf n) m f)
    ∧ (∀ c n m f, c ≠ "" →
      getFullStoragePath c n m f = joinSegs baseUploadDirSegs c) := by
  constructor
  · intro c n m f
    by_cases hc : c = "" <;> by_cases hn : n = "" <;>
      simp [getFullStoragePath, resolveSpec, optOf, hc, hn]
  · intro c n m f hc
    simp [getFullStoragePath, hc]

/-- Witness for C2: with both a category and a namespace supplied, the
category decides the target directory. -/
theorem C2_resolver_precedence_witness :
    getFullStoragePath "photos" "myspace" "image/png" "x.png"
      = joinSegs baseUploadDirSegs "photos" :=
  C2_resolver_precedence.2 "photos" "myspace" "image/png" "x.png" (by decide)

/-- C9: no traversal validation — the namespace `"../outside"` makes both
the upload target directory computed by `getFullStoragePath` and the
path computed by the `DELETE /delete` handler escape the storage root. -/
theorem C9_path_traversal_escapes_root :
    isUnderStorageRoot (getFullStoragePath "" "../outside" "" "") = false
    ∧ isUnderStorageRoot (deleteTargetPath "f.txt" "../outside" "" "") = false
    ∧ getFullStoragePath "" "../outside" "" "" = ["srv", "admin-file", "outside"]
    ∧ deleteTargetPath "f.txt" "../outside" "" ""
        = ["srv", "admin-file", "outside", "f.txt"] := by decide

/-- C10: the `GET /file` response computes its `category` from the
filename extension alone (classification runs with an empty MIME-type
string, which no MIME-table entry contains), and its `mimetype` is the
concatenation `<extension category>/<extension without dot>` when the
extension is tabulated — e.g. `documents/pdf` for a `.pdf` file — and
`application/octet-stream` otherwise, not a lookup in any MIME table. -/
theorem C10_file_detail_fields :
    (∀ fn, fileDetailCategory fn = categoryFromExtensionOnly fn)
    ∧ fileDetailMimetype "report.pdf" = "documents/pdf"
    ∧ fileDetailMimetype "data.xyz" = "application/octet-stream"
    ∧ fileDetailMimetype "track.mp3" = "audios/mp3" := by
  refine ⟨fun fn => rfl, by decide, by decide, by decide⟩

/-- C8: the served disposition type is `attachment` whenever `download=1`
is requested; otherwise it is `inline` exactly when the lower-cased
extension is previewable; a stored `.png` is served `inline` without
query parameters and `attachment` with `download=1`. -/
theorem C8_disposition (fp : String) (q : List (String × String)) :
    (downloadRequested q = true → contentDisposition fp q = "attachment")
    ∧ (downloadRequested q = false →
        previewableExtensions.contains (asciiLower (extname fp)) = true →
        contentDisposition fp q = "inline")
    ∧ (downloadRequested q = false →
        previewableExtensions.contains (asciiLower (extname fp)) = false →
        contentDisposition fp q = "attachment")
    ∧ contentDisposition "photo.png" [] = "inline"
    ∧ contentDisposition "photo.png" [("download", "1")] = "attachment" := by
  refine ⟨?_, ?_, ?_, by decide, by decide⟩
  · intro h1
    simp [contentDisposition, h1]
  · intro h1 h2
    simp [contentDisposition, h1]
    simpa using h2
  · intro h1 h2
    simp [contentDisposition, h1]
    simpa using h2

/-- Witness for C8: concrete instances of the three conditional
conjuncts. -/
theorem C8_disposition_witness :
    contentDisposition "a.bin" [("download", "1")] = "attachment"
    ∧ contentDisposition "b.png" [] = "inline"
    ∧ contentDisposition "c.exe" [] = "attachment" :=
  ⟨(C8_disposition "a.bin" [("download", "1")]).1 (by decide),
   (C8_disposition "b.png" []).2.1 (by decide) (by decide),
   (C8_disposition "c.exe" []).2.2.1 (by decide) (by decide)⟩

/-- Mapping modulo 256 is the identity on ASCII code units. -/
lemma map_mod256_ascii (l : List Nat) (h : ∀ u ∈ l, u < 128) :
    l.map (fun u => u % 256) = l := by
  induction l with
  | nil => rfl
  | cons b rest ih =>
    have hb : b < 128 := h b (List.mem_cons_self _ _)
    have hrest := ih (fun u hu => h u (List.mem_cons_of_mem _ hu))
    simp [Nat.mod_eq_of_lt (by omega : b < 256), hrest]

/-- The replacing UTF-8 decoder is the identity on ASCII byte lists. -/
lemma utf8DecodeReplace_ascii (l : List Nat) (h : ∀ u ∈ l, u < 128) :
    utf8DecodeReplace l = l := by
  induction l with
  | nil => rfl
  | cons b rest ih =>
    have hb : b < 128 := h b (List.mem_cons_self _ _)
    have hrest := ih (fun u hu => h u (List.mem_cons_of_mem _ hu))
    rw [utf8DecodeReplace.eq_def]
    simp only [if_pos (by omega : b ≤ 0x7F)]
    rw [hrest]

/-- Building UTF-16 code units is the identity on scalars inside the
basic multilingual plane. -/
lemma utf16OfScalars_bmp (l : List Nat) (h : ∀ u ∈ l, u < 0x10000) :
    utf16OfScalars l = l := by
  induction l with
  | nil => rfl
  | cons b rest ih =>
    have hb : b < 0x10000 := h b (List.mem_cons_self _ _)
    have hrest := ih (fun u hu => h u (List.mem_cons_of_mem _ hu))
    rw [utf16OfScalars.eq_def]
    simp only [if_pos hb]
    rw [hrest]
    rfl

/-- C6: the filename-encoding repair never surfaces an error (its `try`
body is total, so the `catch` fallback is structurally unreachable and
the function always returns a value), and it is the identity on
ASCII-only names: latin1 re-encoding keeps each unit, and UTF-8 decoding
of ASCII bytes gives the same units back. -/
theorem C6_fix_ascii_identity (units : List Nat) (h : ∀ u ∈ units, u < 128) :
    fixFileNameEncoding units = units := by
  unfold fixFileNameEncoding bufferLatin1ThenUtf8
  rw [map_mod256_ascii units h, utf8DecodeReplace_ascii units h,
    utf16OfScalars_bmp units (fun u hu => by have := h u hu; omega)]

/-- Witness for C6: the ASCII name `hi.txt` round-trips unchanged. -/
theorem C6_fix_ascii_identity_witness :
    fixFileNameEncoding [104, 105, 46, 116, 120, 116]
      = [104, 105, 46, 116, 120, 116] :=
  C6_fix_ascii_identity [104, 105, 46, 116, 120, 116] (by decide)

/-- C5 evaluated at the failing input: the one-unit name `é` (U+00E9)
has latin1 byte `0xE9`, which alone is not a valid UTF-8 sequence; the
decode does not fail over to the original name — `buffer.toString`
never throws, so `fixFileNameEncoding` returns the replacement character
U+FFFD instead of the original name. -/
theorem C5_invalid_utf8_not_returned_unchanged :
    utf8Valid ([0xE9].map (fun u => u % 256)) = false
    ∧ fixFileNameEncoding [0xE9] = [0xFFFD]
    ∧ fixFileNameEncoding [0xE9] ≠ [0xE9] := by decide

/-- After erasing a path, looking it up finds nothing. -/
lemma fsLookup_fsErase (fs : FS) (p : List String) :
    fsLookup (fsErase fs p) p = none := by
  induction fs with
  | nil => rfl
  | cons pe rest ih =>
    by_cases hpe : pe.1 = p
    · set_option linter.unnecessarySimpa false in
      simpa [fsErase, fsLookup, hpe] using ih
    · set_option linter.unnecessarySimpa false in
      simpa [fsErase, fsLookup, hpe] using ih

/-- C7: deleting an existing directory (addressed by namespace and name)
that contains at least one entry answers an error carrying exactly the
entry count and returns the filesystem unchanged — no recursive or
forced deletion; deleting an existing empty directory removes it (and
only it). -/
theorem C7_delete_directory (fs : FS) (nspace name : String)
    (hn : name ≠ "")
    (hd : fsLookup fs (deleteTargetPath name nspace "" "") = some Entry.dir) :
    (childNames fs (deleteTargetPath name nspace "" "") ≠ [] →
      deleteHandler fs name nspace "" "" =
        (DeleteResult.dirNotEmpty
          (childNames fs (deleteTargetPath name nspace "" "")).length, fs))
    ∧ (childNames fs (deleteTargetPath name nspace "" "") = [] →
      deleteHandler fs name nspace "" "" =
        (DeleteResult.dirDeleted,
          fsErase fs (deleteTargetPath name nspace "" ""))
      ∧ fsLookup (fsErase fs (deleteTargetPath name nspace "" ""))
          (deleteTargetPath name nspace "" "") = none) := by
  constructor
  · intro hne
    have hlen : 0 < (childNames fs (deleteTargetPath name nspace "" "")).length :=
      List.length_pos.mpr hne
    unfold deleteHandler
    rw [if_neg hn]
    dsimp only
    rw [hd]
    dsimp only
    rw [if_pos hlen]
  · intro hempty
    refine ⟨?_, fsLookup_fsErase fs _⟩
    unfold deleteHandler
    rw [if_neg hn]
    dsimp only
    rw [hd]
    dsimp only
    rw [hempty]
    rfl

/-- Witness for C7: in a store holding `ns/d/x.txt`, deleting the
directory `d` of namespace `ns` reports one entry and leaves the
filesystem as it was. -/
theorem C7_delete_directory_witness :
    deleteHandler
      [(baseUploadDirSegs, Entry.dir),
       (baseUploadDirSegs ++ ["ns"], Entry.dir),
       (baseUploadDirSegs ++ ["ns", "d"], Entry.dir),
       (baseUploadDirSegs ++ ["ns", "d", "x.txt"], Entry.file 7)]
      "d" "ns" "" ""
    = (DeleteResult.dirNotEmpty 1,
       [(baseUploadDirSegs, Entry.dir),
        (baseUploadDirSegs ++ ["ns"], Entry.dir),
        (baseUploadDirSegs ++ ["ns", "d"], Entry.dir),
        (baseUploadDirSegs ++ ["ns", "d", "x.txt"], Entry.file 7)]) :=
  (C7_delete_directory
    [(baseUploadDirSegs, Entry.dir),
     (baseUploadDirSegs ++ ["ns"], Entry.dir),
     (baseUploadDirSegs ++ ["ns", "d"], Entry.dir),
     (baseUploadDirSegs ++ ["ns", "d", "x.txt"], Entry.file 7)]
    "ns" "d" (by decide) (by decide)).1 (by decide)

/-- Filtering out a name leaves a list that does not contain it. -/
lemma contains_filter_ne_temp (l : List String) :
    (l.filter (fun n => n != "temp")).contains "temp" = false := by
  have hmem : "temp" ∉ l.filter (fun n => n != "temp") := by
    intro hmem
    have h2 := (List.mem_filter.mp hmem).2
    simp at h2
  exact Bool.eq_false_iff.mpr (fun hc => hmem (List.mem_of_elem_eq_true hc))

/-- Counterexample to C4: a `GET /files` request with namespace `temp`
lists the staging subtree itself — here a store whose temp directory
holds `secret.txt` has that staging artifact returned as an entry, so
not every listing excludes the temp subtree and its contents. -/
theorem C4_temp_listing_counterexample :
    filesHandler
      [(baseUploadDirSegs, Entry.dir), (tempUploadDirSegs, Entry.dir),
       (tempUploadDirSegs ++ ["secret.txt"], Entry.file 0)]
      "temp" "" = some ["secret.txt"] := by decide

/-- C4 as amended: only the root listing filters the staging subtree —
for every store, listing the storage root (no namespace, no category)
never returns an entry named `temp`; a listing that names the temp
directory as its namespace or category still returns its contents. -/
theorem C4_root_listing_excludes_temp (fs : FS) :
    ((filesHandler fs "" "").getD []).contains "temp" = false := by
  simp only [filesHandler, if_pos (And.intro rfl rfl), Option.getD_some]
  exact contains_filter_ne_temp _

/-- Counterexample to C1: starting from a store holding only the root
and the (empty) temp directory, two sequential uploads declaring the
same filename `a.txt` into the same category directory `docs` both
store under the very name `a.txt` — the stored names are not distinct —
and after the second commit the file at `docs/a.txt` holds the second
upload's content, the first having been silently overwritten by the
rename. The multer name check only consults the temp directory, which
is empty again once the first upload has been moved out; nothing
re-checks the target directory before the move. -/
theorem C1_two_uploads_same_name_counterexample :
    (uploadStep [(baseUploadDirSegs, Entry.dir), (tempUploadDirSegs, Entry.dir)]
        "a.txt" "docs" "" "text/plain" 1 100).2 = "a.txt"
    ∧ (uploadStep
        (uploadStep [(baseUploadDirSegs, Entry.dir), (tempUploadDirSegs, Entry.dir)]
          "a.txt" "docs" "" "text/plain" 1 100).1
        "a.txt" "docs" "" "text/plain" 2 200).2 = "a.txt"
    ∧ fsLookup
        (uploadStep
          (uploadStep [(baseUploadDirSegs, Entry.dir), (tempUploadDirSegs, Entry.dir)]
            "a.txt" "docs" "" "text/plain" 1 100).1
          "a.txt" "docs" "" "text/plain" 2 200).1
        (baseUploadDirSegs ++ ["docs", "a.txt"]) = some (Entry.file 2) := by decide

set_option maxHeartbeats 1000000 in
/-- Evaluation of one upload of `a.txt` into category `docs` starting
from a store holding only the root and the empty temp directory: the
staged file is renamed to `docs/a.txt` and the stored name is `a.txt`,
for any content and timestamp. -/
lemma uploadStep_first_eval (c t : Nat) :
    uploadStep [(baseUploadDirSegs, Entry.dir), (tempUploadDirSegs, Entry.dir)]
      "a.txt" "docs" "" "text/plain" c t
    = ([(baseUploadDirSegs, Entry.dir), (tempUploadDirSegs, Entry.dir),
        (baseUploadDirSegs ++ ["docs"], Entry.dir),
        (baseUploadDirSegs ++ ["docs", "a.txt"], Entry.file c)], "a.txt") := rfl

set_option maxHeartbeats 1000000 in
/-- Evaluation of a further upload of `a.txt` into category `docs` when
`docs/a.txt` already exists: the temp directory is empty again, so the
same stored name `a.txt` is chosen and the rename replaces the existing
file with the new content, for any contents and timestamp. -/
lemma uploadStep_second_eval (c1 c2 t : Nat) :
    uploadStep
      [(baseUploadDirSegs, Entry.dir), (tempUploadDirSegs, Entry.dir),
       (baseUploadDirSegs ++ ["docs"], Entry.dir),
       (baseUploadDirSegs ++ ["docs", "a.txt"], Entry.file c1)]
      "a.txt" "docs" "" "text/plain" c2 t
    = ([(baseUploadDirSegs, Entry.dir), (tempUploadDirSegs, Entry.dir),
        (baseUploadDirSegs ++ ["docs"], Entry.dir),
        (baseUploadDirSegs ++ ["docs", "a.txt"], Entry.file c2)], "a.txt") := rfl

/-- C1 as amended: the collision check runs only against the temp
staging directory when the staged filename is chosen, and is not
re-performed against the target directory before the move; consequently,
for any contents and timestamps, two sequential uploads of the declared
name `a.txt` into category `docs` each find the temp directory free,
both commit under the stored name `a.txt`, the first commit places the
first content at `docs/a.txt`, and the second commit replaces it with
the second content without adding any entry. -/
theorem C1_staging_only_collision_check (c1 c2 t1 t2 : Nat) :
    (uploadStep [(baseUploadDirSegs, Entry.dir), (tempUploadDirSegs, Entry.dir)]
        "a.txt" "docs" "" "text/plain" c1 t1).2 = "a.txt"
    ∧ (uploadStep
        (uploadStep [(baseUploadDirSegs, Entry.dir), (tempUploadDirSegs, Entry.dir)]
          "a.txt" "docs" "" "text/plain" c1 t1).1
        "a.txt" "docs" "" "text/plain" c2 t2).2 = "a.txt"
    ∧ fsLookup
        (uploadStep [(baseUploadDirSegs, Entry.dir), (tempUploadDirSegs, Entry.dir)]
          "a.txt" "docs" "" "text/plain" c1 t1).1
        (baseUploadDirSegs ++ ["docs", "a.txt"]) = some (Entry.file c1)
    ∧ fsLookup
        (uploadStep
          (uploadStep [(baseUploadDirSegs, Entry.dir), (tempUploadDirSegs, Entry.dir)]
            "a.txt" "docs" "" "text/plain" c1 t1).1
          "a.txt" "docs" "" "text/plain" c2 t2).1
        (baseUploadDirSegs ++ ["docs", "a.txt"]) = some (Entry.file c2)
    ∧ (uploadStep
        (uploadStep [(baseUploadDirSegs, Entry.dir), (tempUploadDirSegs, Entry.dir)]
          "a.txt" "docs" "" "text/plain" c1 t1).1
        "a.txt" "docs" "" "text/plain" c2 t2).1.length
      = (uploadStep [(baseUploadDirSegs, Entry.dir), (tempUploadDirSegs, Entry.dir)]
          "a.txt" "docs" "" "text/plain" c1 t1).1.length := by
  rw [uploadStep_first_eval c1 t1]
  rw [uploadStep_second_eval c1 c2 t2]
  refine ⟨rfl, rfl, rfl, rfl, rfl⟩
